import Mathlib

/-!
Verification development for the awsweeper resource filter engine
(`resource/filter.go` and the resource descriptor registry).

The Go code is shallowly embedded:
* Go maps (`Config`, tag maps) become association lists; lookup takes the
  first binding, and a missing key yields the Go zero value where the code
  reads through a missing key.
* `regexp.MatchString` is embedded by a small regular-expression engine
  covering the pattern subset exercised by this repository's filter
  configurations: literal characters, `.`, the postfix operators `*`, `+`,
  `?`, a leading `^` anchor and a trailing `$` anchor.  Any other
  metacharacter (grouping, classes, escapes, alternation, an interior
  anchor) is a compilation error, mirroring that Go rejects the malformed
  patterns relevant here (e.g. an unmatched parenthesis).  Go's unanchored
  match semantics ("the pattern matches somewhere in the string") is
  reproduced by the prefix/suffix/substring matchers below.
* `log.Fatal` (process termination) is a distinguished outcome
  (`MatchRes.fatal`, and `none` for `Matches`).
-/

namespace Awsweeper

/-- Abstract syntax of the embedded regular expressions: the empty language
(needed for derivatives), the empty string, a literal character, `.`
(any character), concatenation, alternation and Kleene star. -/
inductive Regex where
  | void : Regex
  | eps : Regex
  | char : Char → Regex
  | dot : Regex
  | seq : Regex → Regex → Regex
  | alt : Regex → Regex → Regex
  | star : Regex → Regex
deriving DecidableEq

/-- Does the regex accept the empty string? -/
def nullable : Regex → Bool
  | .void => false
  | .eps => true
  | .char _ => false
  | .dot => false
  | .seq a b => nullable a && nullable b
  | .alt a b => nullable a || nullable b
  | .star _ => true

/-- Brzozowski derivative of a regex by one character. -/
def deriv : Regex → Char → Regex
  | .void, _ => .void
  | .eps, _ => .void
  | .char c, d => if c = d then .eps else .void
  | .dot, _ => .eps
  | .seq a b, d =>
      if nullable a then .alt (.seq (deriv a d) b) (deriv b d)
      else .seq (deriv a d) b
  | .alt a b, d => .alt (deriv a d) (deriv b d)
  | .star a, d => .seq (deriv a d) (.star a)

/-- Exact match: the regex accepts the whole character list. -/
def rmatch : Regex → List Char → Bool
  | r, [] => nullable r
  | r, c :: cs => rmatch (deriv r c) cs

/-- The regex accepts some prefix of the character list. -/
def rmatchPrefix : Regex → List Char → Bool
  | r, [] => nullable r
  | r, c :: cs => nullable r || rmatchPrefix (deriv r c) cs

/-- The regex accepts some suffix of the character list. -/
def rmatchSuffix : Regex → List Char → Bool
  | r, [] => nullable r
  | r, l@(_ :: cs) => rmatch r l || rmatchSuffix r cs

/-- The regex accepts some contiguous substring of the character list. -/
def rmatchSub : Regex → List Char → Bool
  | r, [] => nullable r
  | r, l@(_ :: cs) => rmatchPrefix r l || rmatchSub r cs

/-- A compiled Go pattern: an optional leading `^` anchor, the body, and an
optional trailing `$` anchor. -/
structure GoRegex where
  anchoredStart : Bool
  body : Regex
  anchoredEnd : Bool
deriving DecidableEq

/-- Strip a leading `^` anchor. -/
def stripCaret : List Char → Bool × List Char
  | '^' :: rest => (true, rest)
  | l => (false, l)

/-- Strip a trailing `$` anchor. -/
def stripDollar (l : List Char) : Bool × List Char :=
  if l.getLast? = some '$' then (true, l.dropLast) else (false, l)

/-- Is the character a metacharacter outside the embedded subset?  Those
patterns fail to compile (grouping, classes, braces, escapes,
alternation). -/
def isUnsupportedMeta (c : Char) : Bool :=
  c.toNat = 40 || c.toNat = 41 || c.toNat = 91 || c.toNat = 93 ||
  c.toNat = 123 || c.toNat = 125 || c.toNat = 92 || c.toNat = 124

/-- Parse the anchor-free part of a pattern into a list of regex atoms
(kept in reverse order while scanning, so the postfix operators `*`, `+`,
`?` can act on the most recent atom).  A postfix operator with no
preceding atom, or an unsupported metacharacter, is a compile error. -/
def parseLoop : List Char → List Regex → Option (List Regex)
  | [], acc => some acc
  | c :: rest, acc =>
    if c = '.' then parseLoop rest (.dot :: acc)
    else if c = '*' then
      match acc with
      | [] => none
      | a :: as => parseLoop rest (.star a :: as)
    else if c = '+' then
      match acc with
      | [] => none
      | a :: as => parseLoop rest (.seq a (.star a) :: as)
    else if c = '?' then
      match acc with
      | [] => none
      | a :: as => parseLoop rest (.alt .eps a :: as)
    else if isUnsupportedMeta c then none
    else parseLoop rest (.char c :: acc)

/-- Sequence a list of atoms into one regex. -/
def seqAll (l : List Regex) : Regex := l.foldr Regex.seq Regex.eps

/-- Compile a pattern string, modelling `regexp.Compile`: `none` is a
compilation error. -/
def compile (pat : String) : Option GoRegex :=
  let p1 := stripCaret pat.data
  let p2 := stripDollar p1.2
  if p2.2.any (fun c => c = '^' || c = '$') then none
  else
    match parseLoop p2.2 [] with
    | none => none
    | some racc => some ⟨p1.1, seqAll racc.reverse, p2.1⟩

/-- Run a compiled pattern against a character list with Go's unanchored
semantics: without anchors the pattern may match any substring, a `^`
anchor pins the match to the start, a `$` anchor pins it to the end. -/
def goMatch (re : GoRegex) (l : List Char) : Bool :=
  match re.anchoredStart, re.anchoredEnd with
  | true, true => rmatch re.body l
  | true, false => rmatchPrefix re.body l
  | false, true => rmatchSuffix re.body l
  | false, false => rmatchSub re.body l

/-- Model of Go `regexp.MatchString(pattern, s) (matched bool, err error)`:
the first component is `matched`, the second is whether `err != nil`.
A pattern that fails to compile yields `(false, true)` — exactly Go, where
`MatchString` returns `false` together with the compile error. -/
def regexpMatchString (pat s : String) : Bool × Bool :=
  match compile pat with
  | none => (false, true)
  | some re => (goMatch re s.data, false)

/-- `Created` selects resources by creation time (`time.Time` fields
`Before`/`After`, modelled as integer timestamps; the Go zero time is 0).
The match engine never reads these fields. -/
structure Created where
  Before : Int
  After : Int
deriving DecidableEq

/-- `configEntry` selects the resources of one resource type: regexps on
IDs (`Ids`, a Go `[]*string`, modelled as the list of pattern strings),
regexps on tag values keyed by exact tag key (`Tags`, a Go
`map[string]string`, modelled as an association list), and a creation-time
range. -/
structure configEntry where
  Ids : List String
  Tags : List (String × String)
  Created : Created
deriving DecidableEq

/-- The Go zero value of `configEntry` (nil slice, nil map, zero time):
what `f.cfg[resource.Type_]` yields for a type absent from the config. -/
def goZeroEntry : configEntry := ⟨[], [], ⟨0, 0⟩⟩

/-- `Config` maps resource type names to config entries
(a Go `map[string]configEntry`, modelled as an association list with
distinct keys in any example we build). -/
abbrev Config := List (String × configEntry)

/-- `Filter` selects resources based on a given yaml config. -/
structure Filter where
  cfg : Config

/-- `FilterableResource` holds the resource attributes matched against the
filter.  `Tags = none` models a nil Go map (the `resource.Tags != nil`
test in `Matches` distinguishes it), `some l` a present map. -/
structure FilterableResource where
  Type_ : String
  ID : String
  Tags : Option (List (String × String))
deriving DecidableEq

/-- `cfgEntry, _ := f.cfg[resource.Type_]`: association-list lookup,
defaulting to the Go zero value. -/
def findEntry (cfg : Config) (t : String) : configEntry :=
  match List.lookup t cfg with
  | some e => e
  | none => goZeroEntry

/-- Outcome of `matchID` / `matchTags`: `ret b err` is the Go return
`(b, err)` with `err` the error message when non-nil; `fatal` marks the
`log.Fatal(err)` statement being reached. -/
inductive MatchRes where
  | fatal : MatchRes
  | ret : Bool → Option String → MatchRes
deriving DecidableEq

/-- The loop of `matchID` over `cfgEntry.Ids`: for each pattern run
`regexp.MatchString(*regex, resource.ID)`; when it reports a match, first
`log.Fatal` on a non-nil error, else return `(true, nil)`; after the loop
return `(false, nil)`. -/
def matchIDLoop (id : String) : List String → MatchRes
  | [] => .ret false none
  | regex :: rest =>
    let mr := regexpMatchString regex id
    if mr.1 then (if mr.2 then .fatal else .ret true none)
    else matchIDLoop id rest

/-- `Filter.matchID`: checks whether a resource (given by its type and id)
matches the filter; with no id patterns configured for the type it returns
the absence error. -/
def matchID (f : Filter) (resource : FilterableResource) : MatchRes :=
  let cfgEntry := findEntry f.cfg resource.Type_
  if cfgEntry.Ids.length = 0 then
    .ret false (some "no entries set in filter to match IDs")
  else matchIDLoop resource.ID cfgEntry.Ids

/-- The loop of `matchTags` over `cfgEntry.Tags`: for each configured
`(cfgTagKey, regex)` pair, when the resource's tags contain `cfgTagKey`
run `regexp.MatchString(regex, tagVal)` on its value; on a reported match,
`log.Fatal` on a non-nil error, else return `(true, nil)`; after the loop
return `(false, nil)`. -/
def matchTagsLoop (resTags : List (String × String)) :
    List (String × String) → MatchRes
  | [] => .ret false none
  | (cfgTagKey, regex) :: rest =>
    match List.lookup cfgTagKey resTags with
    | some tagVal =>
      let mr := regexpMatchString regex tagVal
      if mr.1 then (if mr.2 then .fatal else .ret true none)
      else matchTagsLoop resTags rest
    | none => matchTagsLoop resTags rest

/-- `Filter.matchTags`: checks whether a resource (given by its type and
tags) matches the filter; the keys must match exactly, whereas the tag
value is checked against a regex.  With no tag patterns configured it
returns the absence error. -/
def matchTags (f : Filter) (resource : FilterableResource) : MatchRes :=
  let cfgEntry := findEntry f.cfg resource.Type_
  if cfgEntry.Tags.length = 0 then
    .ret false (some "filter has no tag entries for resource type")
  else matchTagsLoop (resource.Tags.getD []) cfgEntry.Tags

/-- `Filter.Matches`: whether a resource matches the configured filter
criteria for tags and ids.  `matchTags` runs only when the resource's tag
map is non-nil; when both sub-matchers returned an error the resource is
selected unconditionally; otherwise the result is the disjunction.
`none` models the (unreachable) process termination of `log.Fatal`. -/
def Matches (f : Filter) (resource : FilterableResource) : Option Bool :=
  let tagsRes : MatchRes :=
    match resource.Tags with
    | none => .ret false none
    | some _ => matchTags f resource
  match tagsRes, matchID f resource with
  | .fatal, _ => none
  | _, .fatal => none
  | .ret matchesTags errTags, .ret matchesID errID =>
    if errID.isSome && errTags.isSome then some true
    else some (matchesID || matchesTags)

deriving instance DecidableEq for Except

/-- `APIDesc` stores the information about a single resource type
(identified by its terraform type).  The Go struct's `Describe`,
`DescribeInput` and `Select` fields are callables bound to live AWS
clients; only the data fields are modelled. -/
structure APIDesc where
  TerraformType : String
  DescribeOutputName : List String
  DeleteID : String
deriving DecidableEq

/-- `Supported` returns the API information for all supported resource
types, in source order (the `AWSClient` argument only feeds the omitted
callable fields). -/
def Supported : List APIDesc := [
  ⟨"aws_autoscaling_group", ["AutoScalingGroups"], "AutoScalingGroupName"⟩,
  ⟨"aws_launch_configuration", ["LaunchConfigurations"], "LaunchConfigurationName"⟩,
  ⟨"aws_instance", ["Reservations", "Instances"], "InstanceId"⟩,
  ⟨"aws_key_pair", ["KeyPairs"], "KeyName"⟩,
  ⟨"aws_elb", ["LoadBalancerDescriptions"], "LoadBalancerName"⟩,
  ⟨"aws_vpc_endpoint", ["VpcEndpoints"], "VpcEndpointId"⟩,
  ⟨"aws_nat_gateway", ["NatGateways"], "NatGatewayId"⟩,
  ⟨"aws_cloudformation_stack", ["Stacks"], "StackId"⟩,
  ⟨"aws_route53_zone", ["HostedZones"], "Id"⟩,
  ⟨"aws_efs_file_system", ["FileSystems"], "FileSystemId"⟩,
  ⟨"aws_network_interface", ["NetworkInterfaces"], "NetworkInterfaceId"⟩,
  ⟨"aws_eip", ["Addresses"], "AllocationId"⟩,
  ⟨"aws_internet_gateway", ["InternetGateways"], "InternetGatewayId"⟩,
  ⟨"aws_subnet", ["Subnets"], "SubnetId"⟩,
  ⟨"aws_route_table", ["RouteTables"], "RouteTableId"⟩,
  ⟨"aws_security_group", ["SecurityGroups"], "GroupId"⟩,
  ⟨"aws_network_acl", ["NetworkAcls"], "NetworkAclId"⟩,
  ⟨"aws_vpc", ["Vpcs"], "VpcId"⟩,
  ⟨"aws_iam_policy", ["Policies"], "Arn"⟩,
  ⟨"aws_iam_group", ["Groups"], "GroupName"⟩,
  ⟨"aws_iam_user", ["Users"], "UserName"⟩,
  ⟨"aws_iam_role", ["Roles"], "RoleName"⟩,
  ⟨"aws_iam_instance_profile", ["InstanceProfiles"], "InstanceProfileName"⟩,
  ⟨"aws_kms_alias", ["Aliases"], "AliasName"⟩,
  ⟨"aws_kms_key", ["Keys"], "KeyId"⟩,
  ⟨"aws_s3_bucket", ["Buckets"], "Name"⟩,
  ⟨"aws_ebs_snapshot", ["Snapshots"], "SnapshotId"⟩,
  ⟨"aws_ebs_volume", ["Volumes"], "VolumeId"⟩,
  ⟨"aws_ami", ["Images"], "ImageId"⟩]

/-- `getSupported` returns the `APIDesc` for a given resource type name:
the loop returns the first descriptor whose `TerraformType` equals the
argument, and an error when none does. -/
def getSupported (resType : String) : Except String APIDesc :=
  match Supported.find? (fun apiDesc => apiDesc.TerraformType = resType) with
  | some apiDesc => .ok apiDesc
  | none => .error ("no APIDesc found for resource type " ++ resType)

/-- `Filter.ResourceTypes` returns all resource types in the config (Go
iterates the map in unspecified order; the association-list order is
used, which the boolean results below do not depend on). -/
def ResourceTypes (f : Filter) : List String :=
  f.cfg.map Prod.fst

/-- A single-quote character for the `Validate` error message. -/
def sq : String := String.singleton (Char.ofNat 39)

/-- The error message of `Validate` for an unsupported resource type. -/
def unsupportedMsg (resType : String) : String :=
  "found unsupported resource type " ++ sq ++ resType ++ sq ++ " in config file"

/-- The loop of `Validate` over the config's resource types: the inner
loop over `Supported` computes whether any descriptor's `TerraformType`
equals the type; on the first type for which none does, return the
error. -/
def validateLoop : List String → Except String Unit
  | [] => .ok ()
  | resType :: rest =>
    if Supported.any (fun a => resType = a.TerraformType) then validateLoop rest
    else .error (unsupportedMsg resType)

/-- `Filter.Validate` checks if all resource types appearing in the config
are currently supported. -/
def Validate (f : Filter) : Except String Unit :=
  validateLoop (ResourceTypes f)

/-- Replace every entry's creation-time range by the zero value; two
configs with the same image under this map differ at most in their
`Created` fields. -/
def eraseCreated (cfg : Config) : Config :=
  cfg.map (fun p => (p.1, { p.2 with Created := ⟨0, 0⟩ }))

/-- Does some configured id pattern report a match on the id? -/
def idHit (e : configEntry) (id : String) : Bool :=
  e.Ids.any fun pat => (regexpMatchString pat id).1

/-- Does one configured `(tagKey, regex)` pair hit the resource tags:
the key present (exact equality) with a value on which the regex reports
a match? -/
def tagPairHit (resTags : List (String × String)) (kv : String × String) : Bool :=
  match List.lookup kv.1 resTags with
  | some tagVal => (regexpMatchString kv.2 tagVal).1
  | none => false

/-- Does some configured tag pattern hit the resource tags? -/
def tagHit (e : configEntry) (resTags : List (String × String)) : Bool :=
  e.Tags.any (tagPairHit resTags)

/-- The boolean `Matches` computes, as a function of the entry found for
the resource's type (the zero entry when the type is absent). -/
def matchesBool (e : configEntry) (r : FilterableResource) : Bool :=
  if e.Ids = [] ∧ r.Tags.isSome ∧ e.Tags = [] then true
  else idHit e r.ID || (r.Tags.isSome && tagHit e (r.Tags.getD []))

/-- The filter config of the repository's test suite (`filter_test.go`):
id criteria only for `aws_iam_role`, empty entry for `aws_security_group`,
tag criteria only for `aws_instance`, both for `aws_vpc`. -/
def testConfig : Config := [
  ("aws_iam_role", ⟨["^foo.*"], [], ⟨0, 0⟩⟩),
  ("aws_security_group", goZeroEntry),
  ("aws_instance", ⟨[], [("foo", "bar"), ("bla", "blub")], ⟨0, 0⟩⟩),
  ("aws_vpc", ⟨["^foo.*"], [("foo", "bar")], ⟨0, 0⟩⟩)]

/-- The filter built over `testConfig`. -/
def testFilter : Filter := ⟨testConfig⟩

/-- A filter whose `aws_iam_role` entry holds the malformed pattern `(`
(an unmatched parenthesis, rejected by the regex compiler). -/
def badPatternFilter : Filter := ⟨[("aws_iam_role", ⟨["("], [], ⟨0, 0⟩⟩)]⟩

/-- A filter config naming an unsupported resource type alongside a
supported one (as in the repository's validator test). -/
def badTypesFilter : Filter :=
  ⟨[("aws_security_group", goZeroEntry), ("not_supported_type", goZeroEntry)]⟩

/-- A one-entry config with a creation-time range `(5, 11)`. -/
def cfgCreatedA : Config := [("aws_vpc", ⟨["^foo.*"], [("foo", "bar")], ⟨5, 11⟩⟩)]

/-- The same config as `cfgCreatedA` except for the creation-time range. -/
def cfgCreatedB : Config := [("aws_vpc", ⟨["^foo.*"], [("foo", "bar")], ⟨7, 3⟩⟩)]

/-- `regexp.MatchString` never reports a match together with an error:
a compile failure reports `(false, err)`. -/
theorem regexpMatchString_fst_imp (pat s : String) :
    (regexpMatchString pat s).1 = true → (regexpMatchString pat s).2 = false := by
  unfold regexpMatchString
  cases compile pat <;> simp

/-- The `matchID` loop returns whether any pattern reports a match, with a
nil error; the `log.Fatal` branch is unreachable. -/
theorem matchIDLoop_eq (id : String) (pats : List String) :
    matchIDLoop id pats =
      MatchRes.ret (pats.any fun pat => (regexpMatchString pat id).1) none := by
  induction pats with
  | nil => rfl
  | cons p ps ih =>
    unfold matchIDLoop
    by_cases h : (regexpMatchString p id).1 = true
    · simp [h, regexpMatchString_fst_imp p id h]
    · simp only [Bool.not_eq_true] at h
      simp [h, ih]

/-- The `matchTags` loop returns whether any configured pair hits, with a
nil error; the `log.Fatal` branch is unreachable. -/
theorem matchTagsLoop_eq (resTags : List (String × String))
    (pats : List (String × String)) :
    matchTagsLoop resTags pats = MatchRes.ret (pats.any (tagPairHit resTags)) none := by
  induction pats with
  | nil => rfl
  | cons kv ps ih =>
    rcases kv with ⟨k, rx⟩
    unfold matchTagsLoop
    rcases hl : List.lookup k resTags with _ | v
    · simp [tagPairHit, hl, ih]
    · by_cases h : (regexpMatchString rx v).1 = true
      · simp [tagPairHit, hl, h, regexpMatchString_fst_imp rx v h]
      · simp only [Bool.not_eq_true] at h
        simp [tagPairHit, hl, h, ih]

/-- Characterization of `matchID`: the absence error exactly on an empty
id-pattern list, otherwise the disjunction of the per-pattern matches. -/
theorem matchID_eq (f : Filter) (r : FilterableResource) :
    matchID f r =
      if (findEntry f.cfg r.Type_).Ids = [] then
        MatchRes.ret false (some "no entries set in filter to match IDs")
      else MatchRes.ret (idHit (findEntry f.cfg r.Type_) r.ID) none := by
  unfold matchID idHit
  simp only [List.length_eq_zero, matchIDLoop_eq]

/-- Characterization of `matchTags`: the absence error exactly on an empty
tag-pattern map, otherwise the disjunction of the per-pair hits. -/
theorem matchTags_eq (f : Filter) (r : FilterableResource) :
    matchTags f r =
      if (findEntry f.cfg r.Type_).Tags = [] then
        MatchRes.ret false (some "filter has no tag entries for resource type")
      else MatchRes.ret (tagHit (findEntry f.cfg r.Type_) (r.Tags.getD [])) none := by
  unfold matchTags tagHit
  simp only [List.length_eq_zero, matchTagsLoop_eq]

/-- Master characterization of `Matches`: it never reaches `log.Fatal`,
and returns `matchesBool` of the entry found for the resource's type. -/
theorem Matches_eq (f : Filter) (r : FilterableResource) :
    Matches f r = some (matchesBool (findEntry f.cfg r.Type_) r) := by
  unfold Matches matchesBool
  rcases hT : r.Tags with _ | m
  · rw [matchID_eq]
    by_cases hI : (findEntry f.cfg r.Type_).Ids = [] <;>
      simp [hI, hT, idHit]
  · rw [matchID_eq, matchTags_eq]
    by_cases hI : (findEntry f.cfg r.Type_).Ids = [] <;>
      by_cases hG : (findEntry f.cfg r.Type_).Tags = [] <;>
        simp [hI, hG, hT, idHit, tagHit]

/-- `tagPairHit` as an existential over the looked-up value. -/
theorem tagPairHit_eq_true (resTags : List (String × String))
    (kv : String × String) :
    tagPairHit resTags kv = true ↔
      ∃ v, List.lookup kv.1 resTags = some v ∧
        (regexpMatchString kv.2 v).1 = true := by
  unfold tagPairHit
  rcases h : List.lookup kv.1 resTags with _ | v <;> simp [h]

/-- A config key found by lookup determines `findEntry`. -/
theorem findEntry_of_lookup {cfg : Config} {t : String} {e : configEntry}
    (h : List.lookup t cfg = some e) : findEntry cfg t = e := by
  unfold findEntry
  rw [h]

/-- An absent config key makes `findEntry` the zero entry. -/
theorem findEntry_of_lookup_none {cfg : Config} {t : String}
    (h : List.lookup t cfg = none) : findEntry cfg t = goZeroEntry := by
  unfold findEntry
  rw [h]

/-- C4: `matchID` returns the distinguishable absence error exactly when
the entry for the resource's kind has an empty id-pattern list; otherwise
it returns a boolean verdict with nil error, true iff at least one
configured id regex matches the resource id (OR semantics). -/
theorem matchID_absence_or_semantics (f : Filter) (r : FilterableResource) :
    (matchID f r =
        MatchRes.ret false (some "no entries set in filter to match IDs") ↔
      (findEntry f.cfg r.Type_).Ids = []) ∧
    ((findEntry f.cfg r.Type_).Ids ≠ [] →
      matchID f r = MatchRes.ret (idHit (findEntry f.cfg r.Type_) r.ID) none) ∧
    ((findEntry f.cfg r.Type_).Ids ≠ [] →
      (matchID f r = MatchRes.ret true none ↔
        ∃ pat ∈ (findEntry f.cfg r.Type_).Ids,
          (regexpMatchString pat r.ID).1 = true)) := by
  have hm := matchID_eq f r
  by_cases h : (findEntry f.cfg r.Type_).Ids = []
  · rw [if_pos h] at hm
    simp [hm, h]
  · rw [if_neg h] at hm
    refine ⟨by simp [hm, h], fun _ => hm, fun _ => ?_⟩
    rw [hm]
    simp [idHit, List.any_eq_true]

/-- Witness for C4 at the test-suite inputs: `"^foo.*"` matches id
`"foo-lala"` and not `"lala-foo"`, and the empty-criteria kind yields the
absence error. -/
theorem matchID_absence_or_semantics_witness :
    matchID testFilter ⟨"aws_iam_role", "foo-lala", none⟩ =
      MatchRes.ret true none ∧
    matchID testFilter ⟨"aws_iam_role", "lala-foo", none⟩ =
      MatchRes.ret false none ∧
    matchID testFilter ⟨"aws_security_group", "matches-any-id", none⟩ =
      MatchRes.ret false (some "no entries set in filter to match IDs") := by
  refine ⟨?_, ?_, ?_⟩
  · rw [(matchID_absence_or_semantics testFilter
      ⟨"aws_iam_role", "foo-lala", none⟩).2.1 (by decide)]
    decide
  · rw [(matchID_absence_or_semantics testFilter
      ⟨"aws_iam_role", "lala-foo", none⟩).2.1 (by decide)]
    decide
  · exact (matchID_absence_or_semantics testFilter
      ⟨"aws_security_group", "matches-any-id", none⟩).1.mpr (by decide)

/-- C5: `matchTags` returns the distinguishable absence error exactly when
the entry for the resource's kind has an empty tag-pattern map; otherwise
it returns a boolean verdict with nil error, true iff some configured
`tagKey→regex` pair has that exact key present in the resource's tags with
a value matching the regex (OR across configured keys; the key is compared
for equality, only the value goes through the regex). -/
theorem matchTags_absence_or_semantics (f : Filter) (r : FilterableResource) :
    (matchTags f r =
        MatchRes.ret false (some "filter has no tag entries for resource type") ↔
      (findEntry f.cfg r.Type_).Tags = []) ∧
    ((findEntry f.cfg r.Type_).Tags ≠ [] →
      matchTags f r =
        MatchRes.ret (tagHit (findEntry f.cfg r.Type_) (r.Tags.getD [])) none) ∧
    ((findEntry f.cfg r.Type_).Tags ≠ [] →
      (matchTags f r = MatchRes.ret true none ↔
        ∃ kv ∈ (findEntry f.cfg r.Type_).Tags, ∃ v,
          List.lookup kv.1 (r.Tags.getD []) = some v ∧
            (regexpMatchString kv.2 v).1 = true)) := by
  have hm := matchTags_eq f r
  by_cases h : (findEntry f.cfg r.Type_).Tags = []
  · rw [if_pos h] at hm
    simp [hm, h]
  · rw [if_neg h] at hm
    refine ⟨by simp [hm, h], fun _ => hm, fun _ => ?_⟩
    rw [hm]
    simp [tagHit, List.any_eq_true, tagPairHit_eq_true]

/-- Witness for C5 at the test-suite inputs over tag patterns
`foo→bar, bla→blub`: tags `foo=bar` and `bla=blub` match, `foo=baz` and
`blub=bla` do not. -/
theorem matchTags_absence_or_semantics_witness :
    matchTags testFilter ⟨"aws_instance", "", some [("foo", "bar")]⟩ =
      MatchRes.ret true none ∧
    matchTags testFilter ⟨"aws_instance", "", some [("bla", "blub")]⟩ =
      MatchRes.ret true none ∧
    matchTags testFilter ⟨"aws_instance", "", some [("foo", "baz")]⟩ =
      MatchRes.ret false none ∧
    matchTags testFilter ⟨"aws_instance", "", some [("blub", "bla")]⟩ =
      MatchRes.ret false none ∧
    matchTags testFilter ⟨"aws_security_group", "", some [("any", "tag")]⟩ =
      MatchRes.ret false (some "filter has no tag entries for resource type") := by
  refine ⟨?_, ?_, ?_, ?_, ?_⟩
  · rw [(matchTags_absence_or_semantics testFilter
      ⟨"aws_instance", "", some [("foo", "bar")]⟩).2.1 (by decide)]
    decide
  · rw [(matchTags_absence_or_semantics testFilter
      ⟨"aws_instance", "", some [("bla", "blub")]⟩).2.1 (by decide)]
    decide
  · rw [(matchTags_absence_or_semantics testFilter
      ⟨"aws_instance", "", some [("foo", "baz")]⟩).2.1 (by decide)]
    decide
  · rw [(matchTags_absence_or_semantics testFilter
      ⟨"aws_instance", "", some [("blub", "bla")]⟩).2.1 (by decide)]
    decide
  · exact (matchTags_absence_or_semantics testFilter
      ⟨"aws_security_group", "", some [("any", "tag")]⟩).1.mpr (by decide)

/-- `idHit` as an existential over the configured patterns. -/
theorem idHit_eq_true {e : configEntry} {id : String} :
    idHit e id = true ↔
      ∃ pat ∈ e.Ids, (regexpMatchString pat id).1 = true := by
  simp [idHit, List.any_eq_true]

/-- `tagHit` as an existential over the configured pairs. -/
theorem tagHit_eq_true {e : configEntry} {resTags : List (String × String)} :
    tagHit e resTags = true ↔
      ∃ kv ∈ e.Tags, ∃ v, List.lookup kv.1 resTags = some v ∧
        (regexpMatchString kv.2 v).1 = true := by
  simp [tagHit, List.any_eq_true, tagPairHit_eq_true]

/-- C1: for a resource whose kind has a config entry with id patterns or
tag patterns non-empty, `Matches` is the OR of the predicates that
evaluate without an absence error: true iff some id pattern matches the
id, or the tag map is present and some configured tag key occurs in the
resource tags with a value matching that key's regex.  In particular a
resource satisfying either criterion alone is selected, and with only tag
criteria a resource with a nil tag map is not. -/
theorem Matches_or_policy (f : Filter) (r : FilterableResource)
    (e : configEntry) (hfind : List.lookup r.Type_ f.cfg = some e)
    (hne : e.Ids ≠ [] ∨ e.Tags ≠ []) :
    Matches f r = some true ↔
      ((e.Ids ≠ [] ∧ ∃ pat ∈ e.Ids, (regexpMatchString pat r.ID).1 = true) ∨
       (e.Tags ≠ [] ∧ ∃ m, r.Tags = some m ∧
         ∃ kv ∈ e.Tags, ∃ v, List.lookup kv.1 m = some v ∧
           (regexpMatchString kv.2 v).1 = true)) := by
  rw [Matches_eq, findEntry_of_lookup hfind]
  unfold matchesBool
  have hcond : ¬(e.Ids = [] ∧ r.Tags.isSome ∧ e.Tags = []) := by
    rcases hne with h | h
    · exact fun hc => h hc.1
    · exact fun hc => h hc.2.2
  rw [if_neg hcond]
  simp only [Option.some.injEq, Bool.or_eq_true, Bool.and_eq_true,
    idHit_eq_true, tagHit_eq_true]
  constructor
  · rintro (⟨p, hp, hmatch⟩ | ⟨hsome, htag⟩)
    · exact Or.inl ⟨List.ne_nil_of_mem hp, p, hp, hmatch⟩
    · rcases Option.isSome_iff_exists.mp hsome with ⟨m, hm⟩
      rcases htag with ⟨kv, hkv, v, hv, hmatch⟩
      rw [hm] at hv
      simp only [Option.getD_some] at hv
      exact Or.inr ⟨List.ne_nil_of_mem hkv, m, hm, kv, hkv, v, hv, hmatch⟩
  · rintro (⟨_, p, hp, hmatch⟩ | ⟨_, m, hm, kv, hkv, v, hv, hmatch⟩)
    · exact Or.inl ⟨p, hp, hmatch⟩
    · refine Or.inr ⟨by simp [hm], kv, hkv, v, ?_, hmatch⟩
      rw [hm]
      simpa using hv

/-- Witness for C1 at the test-suite inputs for `aws_vpc` (both id and tag
criteria configured): a resource matching only the id criterion and one
matching only the tag criterion are both selected. -/
theorem Matches_or_policy_witness :
    Matches testFilter ⟨"aws_vpc", "foo-lala", some [("any", "tag")]⟩ =
      some true ∧
    Matches testFilter ⟨"aws_vpc", "some-id", some [("foo", "bar")]⟩ =
      some true := by
  constructor
  · exact (Matches_or_policy testFilter
      ⟨"aws_vpc", "foo-lala", some [("any", "tag")]⟩
      ⟨["^foo.*"], [("foo", "bar")], ⟨0, 0⟩⟩ (by decide)
      (Or.inl (by decide))).mpr
      (Or.inl ⟨by decide, "^foo.*", by decide, by decide⟩)
  · exact (Matches_or_policy testFilter
      ⟨"aws_vpc", "some-id", some [("foo", "bar")]⟩
      ⟨["^foo.*"], [("foo", "bar")], ⟨0, 0⟩⟩ (by decide)
      (Or.inl (by decide))).mpr
      (Or.inr ⟨by decide, [("foo", "bar")], rfl,
        ("foo", "bar"), by decide, "bar", by decide, by decide⟩)

/-- C2 counterexample: the test config has an entry for
`aws_security_group` with empty id patterns and empty tag patterns, yet a
resource of that kind with an absent (nil) tag map is NOT selected —
`Matches` returns false, refuting "including resources whose tag map is
absent". -/
theorem emptyEntry_nil_tags_not_selected :
    List.lookup "aws_security_group" testFilter.cfg = some goZeroEntry ∧
    goZeroEntry.Ids = [] ∧ goZeroEntry.Tags = [] ∧
    Matches testFilter ⟨"aws_security_group", "any-id", none⟩ = some false := by
  decide

/-- C2 amended: a kind present in the config with an entry having empty id
patterns and empty tag patterns selects exactly the resources of that kind
whose tag map is present (non-nil): `Matches` returns the presence of the
tag map.  With a nil tag map the tag evaluation is skipped, so no tag
absence error is recorded and the select-all branch is not taken. -/
theorem emptyEntry_selects_iff_tags_present (f : Filter)
    (r : FilterableResource) (e : configEntry)
    (hfind : List.lookup r.Type_ f.cfg = some e)
    (hids : e.Ids = []) (htags : e.Tags = []) :
    Matches f r = some r.Tags.isSome := by
  rw [Matches_eq, findEntry_of_lookup hfind]
  unfold matchesBool
  rcases hT : r.Tags with _ | m <;> simp [hids, htags, hT, idHit, tagHit]

/-- Witness for the amended C2: with the empty `aws_security_group` entry,
a resource carrying a (any) tag map is selected, one with a nil tag map is
not. -/
theorem emptyEntry_selects_iff_tags_present_witness :
    Matches testFilter ⟨"aws_security_group", "any-id", some [("any", "tag")]⟩ =
      some true ∧
    Matches testFilter ⟨"aws_security_group", "any-id", none⟩ = some false := by
  constructor
  · exact emptyEntry_selects_iff_tags_present testFilter
      ⟨"aws_security_group", "any-id", some [("any", "tag")]⟩ goZeroEntry
      (by decide) rfl rfl
  · exact emptyEntry_selects_iff_tags_present testFilter
      ⟨"aws_security_group", "any-id", none⟩ goZeroEntry
      (by decide) rfl rfl

/-- C3 counterexample: `aws_elb` has no key in the test config, yet a
resource of that kind with a present tag map IS selected: the missing key
reads as the zero entry, both sub-matchers return their absence errors,
and the select-all branch fires. -/
theorem absentKind_tagged_resource_selected :
    List.lookup "aws_elb" testFilter.cfg = none ∧
    Matches testFilter ⟨"aws_elb", "some-id", some [("a", "b")]⟩ = some true := by
  decide

/-- C3 amended: a kind absent from the config behaves exactly like a
present entry with empty criteria: `Matches` returns true for resources
of that kind whose tag map is present (the zero entry yields both absence
errors and the unconditional-select branch), and false for resources
whose tag map is absent. -/
theorem absentKind_selects_iff_tags_present (f : Filter)
    (r : FilterableResource)
    (hfind : List.lookup r.Type_ f.cfg = none) :
    Matches f r = some r.Tags.isSome := by
  rw [Matches_eq, findEntry_of_lookup_none hfind]
  unfold matchesBool
  rcases hT : r.Tags with _ | m <;> simp [goZeroEntry, hT, idHit, tagHit]

/-- Witness for the amended C3: a kind absent from the test config is
selected with a present tag map and not selected with a nil one. -/
theorem absentKind_selects_iff_tags_present_witness :
    Matches testFilter ⟨"aws_elb", "some-id", some [("a", "b")]⟩ = some true ∧
    Matches testFilter ⟨"aws_elb", "some-id", none⟩ = some false := by
  constructor
  · exact absentKind_selects_iff_tags_present testFilter
      ⟨"aws_elb", "some-id", some [("a", "b")]⟩ (by decide)
  · exact absentKind_selects_iff_tags_present testFilter
      ⟨"aws_elb", "some-id", none⟩ (by decide)

/-- C6: the claim says a malformed pattern reaches the process-terminating
`log.Fatal` path, and that is the evident intent of the code, but the
fatal branch is unreachable: `regexp.MatchString` reports a compile
failure as `(false, err)` and the code inspects `err` only under a
reported match, so at the failing input the malformed pattern is silently
treated as non-matching, and no input whatsoever reaches the fatal path in
`matchID`, `matchTags` or `Matches`. -/
theorem malformed_regex_never_fatal :
    compile "(" = none ∧
    regexpMatchString "(" "foo" = (false, true) ∧
    matchID badPatternFilter ⟨"aws_iam_role", "foo", none⟩ =
      MatchRes.ret false none ∧
    Matches badPatternFilter ⟨"aws_iam_role", "foo", none⟩ = some false ∧
    (∀ (f : Filter) (r : FilterableResource),
      matchID f r ≠ MatchRes.fatal ∧ matchTags f r ≠ MatchRes.fatal ∧
        Matches f r ≠ none) := by
  refine ⟨by decide, by decide, by decide, by decide, fun f r => ⟨?_, ?_, ?_⟩⟩
  · rw [matchID_eq]
    split <;> simp
  · rw [matchTags_eq]
    split <;> simp
  · rw [Matches_eq]
    simp

/-- `findEntry` reads the same id and tag patterns through
`eraseCreated`: only the `Created` field is rewritten. -/
theorem findEntry_eraseCreated (cfg : Config) (t : String) :
    (findEntry (eraseCreated cfg) t).Ids = (findEntry cfg t).Ids ∧
    (findEntry (eraseCreated cfg) t).Tags = (findEntry cfg t).Tags := by
  induction cfg with
  | nil => exact ⟨rfl, rfl⟩
  | cons p rest ih =>
    rcases p with ⟨k, e⟩
    by_cases h : (t == k) = true
    · simp [eraseCreated, findEntry, List.lookup, h]
    · simpa [eraseCreated, findEntry, List.lookup, h] using ih

/-- C9: the matching decision never consults the creation-time range:
two configs identical except for the `Created` fields of their entries
(i.e. with the same image under `eraseCreated`) make `Matches` return
the same result on every resource. -/
theorem Matches_ignores_created (cfg₁ cfg₂ : Config)
    (r : FilterableResource)
    (h : eraseCreated cfg₁ = eraseCreated cfg₂) :
    Matches ⟨cfg₁⟩ r = Matches ⟨cfg₂⟩ r := by
  rw [Matches_eq, Matches_eq]
  show some (matchesBool (findEntry cfg₁ r.Type_) r) =
    some (matchesBool (findEntry cfg₂ r.Type_) r)
  have h1 := findEntry_eraseCreated cfg₁ r.Type_
  have h2 := findEntry_eraseCreated cfg₂ r.Type_
  unfold matchesBool idHit tagHit
  rw [← h1.1, ← h1.2, ← h2.1, ← h2.2, h]

/-- Witness for C9: two one-entry configs differing only in their
creation-time ranges yield the same match verdict. -/
theorem Matches_ignores_created_witness :
    cfgCreatedA ≠ cfgCreatedB ∧
    Matches ⟨cfgCreatedA⟩ ⟨"aws_vpc", "foo-1", none⟩ =
      Matches ⟨cfgCreatedB⟩ ⟨"aws_vpc", "foo-1", none⟩ :=
  ⟨by decide, Matches_ignores_created cfgCreatedA cfgCreatedB
    ⟨"aws_vpc", "foo-1", none⟩ (by decide)⟩

/-- C7: `Validate` succeeds iff every key of the filter config equals the
`TerraformType` of some descriptor in `Supported`; on failure the error
message names an unsupported resource type occurring in the config. -/
theorem Validate_ok_iff (f : Filter) :
    (Validate f = .ok () ↔
      ∀ t ∈ ResourceTypes f, ∃ a ∈ Supported, t = a.TerraformType) ∧
    (∀ msg, Validate f = .error msg →
      ∃ t ∈ ResourceTypes f,
        (∀ a ∈ Supported, t ≠ a.TerraformType) ∧ msg = unsupportedMsg t) := by
  unfold Validate
  generalize ResourceTypes f = ts
  induction ts with
  | nil =>
    constructor
    · simp [validateLoop]
    · intro msg hmsg
      simp [validateLoop] at hmsg
  | cons t ts ih =>
    by_cases h : Supported.any (fun a => t = a.TerraformType) = true
    · have hstep : validateLoop (t :: ts) = validateLoop ts := by
        show (if (Supported.any fun a => decide (t = a.TerraformType)) = true
            then validateLoop ts else Except.error (unsupportedMsg t)) =
          validateLoop ts
        rw [if_pos h]
      have hsup : ∃ a ∈ Supported, t = a.TerraformType := by
        simpa [List.any_eq_true] using h
      rw [hstep]
      constructor
      · rw [ih.1]
        constructor
        · intro hall t' ht'
          rcases List.mem_cons.mp ht' with rfl | hmem
          · exact hsup
          · exact hall t' hmem
        · exact fun hall t' ht' => hall t' (List.mem_cons_of_mem _ ht')
      · intro msg hmsg
        obtain ⟨t', ht', hno, hm⟩ := ih.2 msg hmsg
        exact ⟨t', List.mem_cons_of_mem _ ht', hno, hm⟩
    · have hstep : validateLoop (t :: ts) = .error (unsupportedMsg t) := by
        show (if (Supported.any fun a => decide (t = a.TerraformType)) = true
            then validateLoop ts else Except.error (unsupportedMsg t)) =
          Except.error (unsupportedMsg t)
        rw [if_neg h]
      have hno : ∀ a ∈ Supported, t ≠ a.TerraformType := by
        intro a ha he
        exact h (List.any_eq_true.mpr ⟨a, ha, by simp [he]⟩)
      rw [hstep]
      constructor
      · constructor
        · intro hok
          cases hok
        · intro hall
          obtain ⟨a, ha, he⟩ := hall t (List.mem_cons_self t ts)
          exact absurd he (hno a ha)
      · intro msg hmsg
        refine ⟨t, List.mem_cons_self t ts, hno, ?_⟩
        cases hmsg
        rfl

/-- Witness for C7: the test-suite config of supported kinds (one with
empty criteria) validates, and a config naming `not_supported_type`
alongside a supported kind fails with a message naming an unsupported
type from the config. -/
theorem Validate_ok_iff_witness :
    Validate testFilter = .ok () ∧
    (∃ t ∈ ResourceTypes badTypesFilter,
      (∀ a ∈ Supported, t ≠ a.TerraformType) ∧
        unsupportedMsg "not_supported_type" = unsupportedMsg t) := by
  constructor
  · exact (Validate_ok_iff testFilter).1.mpr (by decide)
  · exact (Validate_ok_iff badTypesFilter).2
      (unsupportedMsg "not_supported_type") (by rfl)

/-- C8: the registry's kind identifiers are pairwise unique, `getSupported`
on each descriptor's identifier returns that same descriptor, and
`getSupported` on an identifier appearing in no descriptor fails with an
error rather than returning a descriptor. -/
theorem Supported_unique_roundtrip :
    (Supported.map APIDesc.TerraformType).Nodup ∧
    (∀ a ∈ Supported, getSupported a.TerraformType = .ok a) ∧
    (∀ t, (∀ a ∈ Supported, a.TerraformType ≠ t) →
      getSupported t = .error ("no APIDesc found for resource type " ++ t)) := by
  refine ⟨by decide, by decide, fun t ht => ?_⟩
  unfold getSupported
  rw [List.find?_eq_none.mpr ?_]
  intro a ha
  simp [ht a ha]

/-- Witness for C8: the roundtrip at `aws_vpc`, and the failure at a name
no descriptor carries. -/
theorem Supported_unique_roundtrip_witness :
    getSupported "aws_vpc" = .ok ⟨"aws_vpc", ["Vpcs"], "VpcId"⟩ ∧
    getSupported "not_supported_type" =
      .error ("no APIDesc found for resource type not_supported_type") :=
  ⟨Supported_unique_roundtrip.2.1 ⟨"aws_vpc", ["Vpcs"], "VpcId"⟩ (by decide),
   Supported_unique_roundtrip.2.2 "not_supported_type" (by decide)⟩

/-- An exact match extends to a prefix match of any longer list. -/
theorem rmatchPrefix_append (r : Regex) (p q : List Char)
    (h : rmatch r p = true) : rmatchPrefix r (p ++ q) = true := by
  induction p generalizing r with
  | nil =>
    simp only [rmatch] at h
    cases q with
    | nil => exact h
    | cons c cs =>
      show (nullable r || rmatchPrefix (deriv r c) cs) = true
      rw [h, Bool.true_or]
  | cons c cs ih =>
    simp only [rmatch] at h
    show (nullable r || rmatchPrefix (deriv r c) (cs ++ q)) = true
    rw [ih (deriv r c) h, Bool.or_true]

/-- A prefix match is a substring match. -/
theorem rmatchSub_of_rmatchPrefix (r : Regex) (l : List Char)
    (h : rmatchPrefix r l = true) : rmatchSub r l = true := by
  cases l with
  | nil => exact h
  | cons c cs =>
    show (rmatchPrefix r (c :: cs) || rmatchSub r cs) = true
    rw [h, Bool.true_or]

/-- A substring match survives prepending characters. -/
theorem rmatchSub_append_left (r : Regex) (a l : List Char)
    (h : rmatchSub r l = true) : rmatchSub r (a ++ l) = true := by
  induction a with
  | nil => exact h
  | cons c cs ih =>
    show (rmatchPrefix r (c :: (cs ++ l)) || rmatchSub r (cs ++ l)) = true
    rw [ih, Bool.or_true]

/-- An exact match anywhere inside the list gives a substring match. -/
theorem rmatchSub_of_middle (r : Regex) (a b c : List Char)
    (h : rmatch r b = true) : rmatchSub r (a ++ b ++ c) = true := by
  rw [List.append_assoc]
  exact rmatchSub_append_left r a (b ++ c)
    (rmatchSub_of_rmatchPrefix r (b ++ c) (rmatchPrefix_append r b c h))

/-- C10: id and tag-value regex matching is unanchored substring
matching.  For every pattern that compiles without `^`/`$` anchors, a
resource id containing a substring exactly matched by the pattern's body
makes `matchID` report a match, and a tag value containing such a
substring makes `matchTags` report a match — whole-identifier matching
requires explicit anchors. -/
theorem unanchored_substring_matching :
    (∀ (f : Filter) (r : FilterableResource) (p : String) (re : GoRegex)
        (a b c : List Char),
      p ∈ (findEntry f.cfg r.Type_).Ids → compile p = some re →
      re.anchoredStart = false → re.anchoredEnd = false →
      r.ID.data = a ++ b ++ c → rmatch re.body b = true →
      matchID f r = MatchRes.ret true none) ∧
    (∀ (f : Filter) (r : FilterableResource) (k p v : String) (re : GoRegex)
        (m : List (String × String)) (a b c : List Char),
      (k, p) ∈ (findEntry f.cfg r.Type_).Tags → r.Tags = some m →
      List.lookup k m = some v → compile p = some re →
      re.anchoredStart = false → re.anchoredEnd = false →
      v.data = a ++ b ++ c → rmatch re.body b = true →
      matchTags f r = MatchRes.ret true none) := by
  have hms : ∀ (p s : String) (re : GoRegex) (a b c : List Char),
      compile p = some re → re.anchoredStart = false →
      re.anchoredEnd = false → s.data = a ++ b ++ c →
      rmatch re.body b = true → (regexpMatchString p s).1 = true := by
    intro p s re a b c hc hs he hsd hb
    unfold regexpMatchString
    rw [hc]
    show goMatch re s.data = true
    unfold goMatch
    rw [hs, he, hsd]
    exact rmatchSub_of_middle re.body a b c hb
  constructor
  · intro f r p re a b c hp hc hs he hid hb
    rw [matchID_eq, if_neg (List.ne_nil_of_mem hp)]
    have hhit : idHit (findEntry f.cfg r.Type_) r.ID = true := by
      unfold idHit
      exact List.any_eq_true.mpr ⟨p, hp, hms p r.ID re a b c hc hs he hid hb⟩
    rw [hhit]
  · intro f r k p v re m a b c hkp hm hv hc hs he hvd hb
    rw [matchTags_eq, if_neg (List.ne_nil_of_mem hkp)]
    have hhit : tagHit (findEntry f.cfg r.Type_) (r.Tags.getD []) = true := by
      unfold tagHit
      refine List.any_eq_true.mpr ⟨(k, p), hkp, ?_⟩
      rw [tagPairHit_eq_true]
      refine ⟨v, ?_, hms p v re a b c hc hs he hvd hb⟩
      rw [hm]
      simpa using hv
    rw [hhit]

/-- Witness for C10: the unanchored pattern `foo` selects the id
`bar-foo-baz` (via `matchID`) and the tag value `bar-foo-baz` (via
`matchTags`), the pattern matching only the middle of the string. -/
theorem unanchored_substring_matching_witness :
    matchID ⟨[("aws_vpc", ⟨["foo"], [], ⟨0, 0⟩⟩)]⟩
      ⟨"aws_vpc", "bar-foo-baz", none⟩ = MatchRes.ret true none ∧
    matchTags ⟨[("aws_vpc", ⟨[], [("Name", "foo")], ⟨0, 0⟩⟩)]⟩
      ⟨"aws_vpc", "x", some [("Name", "bar-foo-baz")]⟩ =
        MatchRes.ret true none := by
  constructor
  · exact unanchored_substring_matching.1
      ⟨[("aws_vpc", ⟨["foo"], [], ⟨0, 0⟩⟩)]⟩ ⟨"aws_vpc", "bar-foo-baz", none⟩
      "foo" ⟨false, .seq (.char 'f') (.seq (.char 'o') (.seq (.char 'o') .eps)), false⟩
      "bar-".data "foo".data "-baz".data
      (by decide) (by decide) rfl rfl (by decide) (by decide)
  · exact unanchored_substring_matching.2
      ⟨[("aws_vpc", ⟨[], [("Name", "foo")], ⟨0, 0⟩⟩)]⟩
      ⟨"aws_vpc", "x", some [("Name", "bar-foo-baz")]⟩
      "Name" "foo" "bar-foo-baz"
      ⟨false, .seq (.char 'f') (.seq (.char 'o') (.seq (.char 'o') .eps)), false⟩
      [("Name", "bar-foo-baz")] "bar-".data "foo".data "-baz".data
      (by decide) rfl (by decide) (by decide) rfl rfl (by decide) (by decide)

end Awsweeper
